import Mathlib

/-!
Verification of the AArch64 assembler / emulator core.

This file gives a shallow embedding of the C sources
(`src/emulator/memory.c`, `src/emulator/register.c`, `src/emulator/cpu.c`,
`src/assembler/symbol_table.c`, `src/assembler/decode.c`,
`src/assembler/decode_helper.c`, the `assemble` driver and `instructions.h`)
and proves or refutes the frozen claims about them.

Conventions of the embedding:
* machine integers are `Nat` with explicit `% 2 ^ w` where the C code
  truncates (casts, bit-field assignments, narrowing conversions);
* the packed bit-field structs of `instructions.h` are modelled by the
  field extraction `getField w pos len` / update `setField w pos len v`,
  with `pos`/`len` read off the LSB-first bit-field layout;
* C functions that can call `exit` / `abort` (failed bounds checks,
  `assert_msg`, unknown encodings) return `Option`, `none` meaning the
  process dies;
* C strings are `List Char`; the mutable hash maps of the symbol table
  are association lists and the dynamic arrays are `List`s (the claims
  never depend on hash order: the code only ever iterates the per-label
  address `DArray`, which is kept in insertion order here as in C).
-/

namespace AArch

/-- Extract the `len`-bit field of `w` that starts at bit `pos`
(LSB numbering), exactly what reading a packed C bit-field does. -/
def getField (w pos len : Nat) : Nat :=
  w / 2 ^ pos % 2 ^ len

/-- Overwrite the `len`-bit field of `w` starting at bit `pos` with `v`,
exactly what assigning to a packed C bit-field does (the value is
truncated to `len` bits). -/
def setField (w pos len v : Nat) : Nat :=
  w % 2 ^ pos + v % 2 ^ len * 2 ^ pos + w / 2 ^ (pos + len) * 2 ^ (pos + len)

/-- `sign_extend` from `utils.c`: extend a `bit_length`-bit two's-complement
value to a signed 64-bit integer.  The C code tests
`(bits >> (bit_length - 1)) == 1` and then ORs in the high mask
`0xFF…F ^ ((1 << bit_length) - 1)`; for `bits < 2 ^ bit_length` the
resulting `int64_t` equals `bits - 2 ^ bit_length`. -/
def sign_extend (bits : Nat) (bit_length : Nat) : Int :=
  if bits / 2 ^ (bit_length - 1) = 1 then
    (bits : Int) - 2 ^ bit_length
  else
    (bits : Int)

/-! ## Memory (`memory.c`)

`static uint8_t mem[NUM_OF_MEMORY_ADDRESS]` is a flat byte array; we model
it as a function from addresses to byte values. -/

def NUM_OF_MEMORY_ADDRESS : Nat := 2 ^ 21

abbrev Memory := Nat → Nat

/-- The zero-initialised memory produced by `init_memory`. -/
def zero_memory : Memory := fun _ => 0

/-- `get_word`: bounds check `address > NUM_OF_MEMORY_ADDRESS - sizeof(word)`
(fatal, i.e. `none`), then a little-endian 4-byte read. -/
def get_word (m : Memory) (address : Nat) : Option Nat :=
  if NUM_OF_MEMORY_ADDRESS - 4 < address then none
  else some (m address + 2 ^ 8 * m (address + 1) + 2 ^ 16 * m (address + 2) +
             2 ^ 24 * m (address + 3))

/-- The memory after `set_word`'s little-endian 4-byte write. -/
def set_word_mem (m : Memory) (address data : Nat) : Memory := fun i =>
  if i = address then data % 2 ^ 8
  else if i = address + 1 then data / 2 ^ 8 % 2 ^ 8
  else if i = address + 2 then data / 2 ^ 16 % 2 ^ 8
  else if i = address + 3 then data / 2 ^ 24 % 2 ^ 8
  else m i

/-- `set_word`: same bounds check as `get_word`, then the 4-byte write. -/
def set_word (m : Memory) (address data : Nat) : Option Memory :=
  if NUM_OF_MEMORY_ADDRESS - 4 < address then none
  else some (set_word_mem m address data)

/-- `get_double_word`: bounds check
`address > NUM_OF_MEMORY_ADDRESS - sizeof(double_word)`, then a
little-endian 8-byte read. -/
def get_double_word (m : Memory) (address : Nat) : Option Nat :=
  if NUM_OF_MEMORY_ADDRESS - 8 < address then none
  else some (m address + 2 ^ 8 * m (address + 1) + 2 ^ 16 * m (address + 2) +
             2 ^ 24 * m (address + 3) + 2 ^ 32 * m (address + 4) +
             2 ^ 40 * m (address + 5) + 2 ^ 48 * m (address + 6) +
             2 ^ 56 * m (address + 7))

/-- The memory after `set_double_word`'s little-endian 8-byte write. -/
def set_double_word_mem (m : Memory) (address data : Nat) : Memory := fun i =>
  if i = address then data % 2 ^ 8
  else if i = address + 1 then data / 2 ^ 8 % 2 ^ 8
  else if i = address + 2 then data / 2 ^ 16 % 2 ^ 8
  else if i = address + 3 then data / 2 ^ 24 % 2 ^ 8
  else if i = address + 4 then data / 2 ^ 32 % 2 ^ 8
  else if i = address + 5 then data / 2 ^ 40 % 2 ^ 8
  else if i = address + 6 then data / 2 ^ 48 % 2 ^ 8
  else if i = address + 7 then data / 2 ^ 56 % 2 ^ 8
  else m i

/-- `set_double_word`: bounds check, then the 8-byte write. -/
def set_double_word (m : Memory) (address data : Nat) : Option Memory :=
  if NUM_OF_MEMORY_ADDRESS - 8 < address then none
  else some (set_double_word_mem m address data)

/-! ## Registers and processor state (`register.c`, `cpu.c`) -/

def NUM_REGISTERS : Nat := 31

def INSTR_SIZE : Nat := 4

def HALT_INSTRUCTION : Nat := 0x8a000000

/-- The four PState flags, `processor_state` in `cpu.h`. -/
structure processor_state where
  negative_flag : Bool
  zero_flag : Bool
  carry_flag : Bool
  overflow_flag : Bool

/-- The mutable state of the emulator: the 31 general registers
(`gen_registers`), the program counter and the PState from `cpu.c`, and
the byte memory from `memory.c`.  General-register values are kept
`< 2 ^ 64` because every write goes through `set_reg_value`, which takes a
`uint64_t`. -/
structure CPU where
  regs : Nat → Nat
  pc : Nat
  pstate : processor_state
  mem : Memory

/-- Initial emulator state: `init_register` zeroes the registers and the
PC, `init_memory` zeroes memory, and the file-scope initialiser of
`pstate` in `cpu.c` is `{false, true, false, false}` (the zero flag starts
set). -/
def cpu0 : CPU :=
  { regs := fun _ => 0
    pc := 0
    pstate := { negative_flag := false, zero_flag := true
                carry_flag := false, overflow_flag := false }
    mem := zero_memory }

/-- `get_reg_value_64`: register `NUM_REGISTERS = 31` is the zero register.
Every call site passes a 5-bit register field, so the fatal
`reg_num > NUM_REGISTERS` branch of the C code is unreachable and is not
modelled. -/
def get_reg_value_64 (s : CPU) (reg_num : Nat) : Nat :=
  if reg_num = NUM_REGISTERS then 0 else s.regs reg_num

/-- `get_reg_value_32`: the low half (`.wn`) of the 64-bit register. -/
def get_reg_value_32 (s : CPU) (reg_num : Nat) : Nat :=
  get_reg_value_64 s reg_num % 2 ^ 32

/-- `set_reg_value`: writes to the zero register are discarded; the
`uint64_t value` parameter truncates whatever the caller computed. -/
def set_reg_value (s : CPU) (reg_num value : Nat) : CPU :=
  if reg_num = NUM_REGISTERS then s
  else { s with regs := fun i => if i = reg_num then value % 2 ^ 64 else s.regs i }

/-- `increase_pc`: `program_counter += offset` with a signed 64-bit offset,
wrapping as `uint64_t`. -/
def increase_pc (s : CPU) (offset : Int) : CPU :=
  { s with pc := (((s.pc : Int) + offset).emod (2 ^ 64)).toNat }

/-- `increment_pc`: `program_counter += INSTR_SIZE`. -/
def increment_pc (s : CPU) : CPU :=
  { s with pc := (s.pc + INSTR_SIZE) % 2 ^ 64 }

/-! ## Decoded instruction variants (`instructions.h`)

Each struct is the list of its bit-fields, LSB first; the decoders read
the fields out of the 32-bit word with `getField` at the positions given
by that layout. -/

/-- `ImmArith`: rd[0:5] rn[5:5] imm12[10:12] sh[22:1] opi[23:3] op0[26:3]
opc_flag[29:1] opc_op[30:1] sf[31:1]. -/
structure ImmArith where
  sf : Nat
  opc_op : Nat
  opc_flag : Nat
  sh : Nat
  imm12 : Nat
  rn : Nat
  rd : Nat

def decodeImmArith (w : Nat) : ImmArith :=
  { sf := getField w 31 1, opc_op := getField w 30 1, opc_flag := getField w 29 1
    sh := getField w 22 1, imm12 := getField w 10 12
    rn := getField w 5 5, rd := getField w 0 5 }

/-- `ImmWide`: rd[0:5] imm16[5:16] hw[21:2] opi[23:3] op0[26:3] opc[29:2]
sf[31:1]. -/
structure ImmWide where
  sf : Nat
  opc : Nat
  hw : Nat
  imm16 : Nat
  rd : Nat

def decodeImmWide (w : Nat) : ImmWide :=
  { sf := getField w 31 1, opc := getField w 29 2, hw := getField w 21 2
    imm16 := getField w 5 16, rd := getField w 0 5 }

/-- `RegArith`: rd[0:5] rn[5:5] operand[10:6] rm[16:5] N[21:1] shift[22:2]
id[24:1] op0[25:3] M[28:1] opc_flag[29:1] opc_op[30:1] sf[31:1]. -/
structure RegArith where
  sf : Nat
  opc_op : Nat
  opc_flag : Nat
  shift : Nat
  rm : Nat
  operand : Nat
  rn : Nat
  rd : Nat

def decodeRegArith (w : Nat) : RegArith :=
  { sf := getField w 31 1, opc_op := getField w 30 1, opc_flag := getField w 29 1
    shift := getField w 22 2, rm := getField w 16 5, operand := getField w 10 6
    rn := getField w 5 5, rd := getField w 0 5 }

/-- `RegLogic`: same layout as `RegArith` with opc[29:2]. -/
structure RegLogic where
  sf : Nat
  opc : Nat
  shift : Nat
  N : Nat
  rm : Nat
  operand : Nat
  rn : Nat
  rd : Nat

def decodeRegLogic (w : Nat) : RegLogic :=
  { sf := getField w 31 1, opc := getField w 29 2, shift := getField w 22 2
    N := getField w 21 1, rm := getField w 16 5, operand := getField w 10 6
    rn := getField w 5 5, rd := getField w 0 5 }

/-- `RegMultiply`: rd[0:5] rn[5:5] ra[10:5] x[15:1] rm[16:5] opr[21:3]
id[24:1] op0[25:3] M[28:1] opc[29:2] sf[31:1]. -/
structure RegMultiply where
  sf : Nat
  x : Nat
  rm : Nat
  ra : Nat
  rn : Nat
  rd : Nat

def decodeRegMultiply (w : Nat) : RegMultiply :=
  { sf := getField w 31 1, x := getField w 15 1, rm := getField w 16 5
    ra := getField w 10 5, rn := getField w 5 5, rd := getField w 0 5 }

/-- `DTImmOffset`: rt[0:5] xn[5:5] imm12[10:12] L[22:1] U[24:1] sf[30:1]. -/
structure DTImmOffset where
  sf : Nat
  L : Nat
  imm12 : Nat
  xn : Nat
  rt : Nat

def decodeDTImmOffset (w : Nat) : DTImmOffset :=
  { sf := getField w 30 1, L := getField w 22 1, imm12 := getField w 10 12
    xn := getField w 5 5, rt := getField w 0 5 }

/-- `DTRegOffset`: rt[0:5] xn[5:5] xm[16:5] id2[21:1] L[22:1] sf[30:1]. -/
structure DTRegOffset where
  sf : Nat
  L : Nat
  xm : Nat
  xn : Nat
  rt : Nat

def decodeDTRegOffset (w : Nat) : DTRegOffset :=
  { sf := getField w 30 1, L := getField w 22 1, xm := getField w 16 5
    xn := getField w 5 5, rt := getField w 0 5 }

/-- `DTLoadLiteral`: rt[0:5] simm19[5:19] sf[30:1]. -/
structure DTLoadLiteral where
  sf : Nat
  simm19 : Nat
  rt : Nat

def decodeDTLoadLiteral (w : Nat) : DTLoadLiteral :=
  { sf := getField w 30 1, simm19 := getField w 5 19, rt := getField w 0 5 }

/-- `DTPrePostIndex`: rt[0:5] xn[5:5] I[11:1] simm9[12:9] L[22:1] sf[30:1]. -/
structure DTPrePostIndex where
  sf : Nat
  L : Nat
  I : Nat
  simm9 : Nat
  xn : Nat
  rt : Nat

def decodeDTPrePostIndex (w : Nat) : DTPrePostIndex :=
  { sf := getField w 30 1, L := getField w 22 1, I := getField w 11 1
    simm9 := getField w 12 9, xn := getField w 5 5, rt := getField w 0 5 }

/-- `BranchUncond`: simm26[0:26] op0[26:3] id[30:2]. -/
structure BranchUncond where
  simm26 : Nat

def decodeBranchUncond (w : Nat) : BranchUncond :=
  { simm26 := getField w 0 26 }

/-- `BranchCond`: cond[0:4] simm19[5:19] op0[26:3] id[30:2]. -/
structure BranchCond where
  cond : Nat
  simm19 : Nat

def decodeBranchCond (w : Nat) : BranchCond :=
  { cond := getField w 0 4, simm19 := getField w 5 19 }

/-- `BranchReg`: xn[5:5] op0[26:3] id[30:2]. -/
structure BranchReg where
  xn : Nat

def decodeBranchReg (w : Nat) : BranchReg :=
  { xn := getField w 5 5 }

/-! ## Execute helpers (`cpu.c`) -/

/-- The `uint32_t result` of `apply_arithmetic_32`: the `(int32_t)` casts
and the store back into `uint32_t result` make it
`(src ± operand2) mod 2 ^ 32`. -/
def arith_result_32 (src operand2 opc_op : Nat) : Nat :=
  if opc_op ≠ 0 then (src + (2 ^ 32 - operand2 % 2 ^ 32)) % 2 ^ 32
  else (src + operand2) % 2 ^ 32

/-- The `uint64_t result` of `apply_arithmetic_64`. -/
def arith_result_64 (src operand2 opc_op : Nat) : Nat :=
  if opc_op ≠ 0 then (src + (2 ^ 64 - operand2 % 2 ^ 64)) % 2 ^ 64
  else (src + operand2) % 2 ^ 64

/-- `apply_arithmetic_32`.  The flag computations copy the C expressions
verbatim — in particular the overflow test
`src > 0 && operand2 > 0 && result < 0` compares the *unsigned* `result`
against 0, which is the literal `decide (result < 0)` over `Nat` here.
`opc_flag` and `opc_op` are `int`s tested for non-zeroness. -/
def apply_arithmetic_32 (s : CPU) (src operand2 dest_reg_index opc_flag opc_op : Nat) :
    CPU :=
  let result := arith_result_32 src operand2 opc_op
  let ps :=
    if opc_flag ≠ 0 then
      { negative_flag := result.testBit 31
        zero_flag := decide (result = 0)
        overflow_flag := decide (0 < src) && decide (0 < operand2) && decide (result < 0)
        carry_flag :=
          if opc_op ≠ 0 then decide (operand2 ≤ src)
          else decide (result < src) || decide (result < operand2) }
    else s.pstate
  let s' := { s with pstate := ps }
  if dest_reg_index = NUM_REGISTERS then s'
  else set_reg_value s' dest_reg_index result

/-- `apply_arithmetic_64`, the 64-bit twin of `apply_arithmetic_32`. -/
def apply_arithmetic_64 (s : CPU) (src operand2 dest_reg_index opc_flag opc_op : Nat) :
    CPU :=
  let result := arith_result_64 src operand2 opc_op
  let ps :=
    if opc_flag ≠ 0 then
      { negative_flag := result.testBit 63
        zero_flag := decide (result = 0)
        overflow_flag := decide (0 < src) && decide (0 < operand2) && decide (result < 0)
        carry_flag :=
          if opc_op ≠ 0 then decide (operand2 ≤ src)
          else decide (result < src) || decide (result < operand2) }
    else s.pstate
  let s' := { s with pstate := ps }
  if dest_reg_index = NUM_REGISTERS then s'
  else set_reg_value s' dest_reg_index result

/-- Two's-complement reading of a `uint32_t` as `int32_t`, used for the
arithmetic right shift. -/
def toInt32 (x : Nat) : Int :=
  if 2 ^ 31 ≤ x % 2 ^ 32 then (x % 2 ^ 32 : Int) - 2 ^ 32 else (x % 2 ^ 32 : Int)

/-- Two's-complement reading of a `uint64_t` as `int64_t`. -/
def toInt64 (x : Nat) : Int :=
  if 2 ^ 63 ≤ x % 2 ^ 64 then (x % 2 ^ 64 : Int) - 2 ^ 64 else (x % 2 ^ 64 : Int)

/-- `apply_shift_32`.  `ITP_LSL = 0`, `ITP_LSR = 1`, `ITP_ASR = 2`,
`ITP_ROR = 3`; the signed right shift of gcc is a floor division. -/
def apply_shift_32 (operand shift : Nat) (shift_option : Nat) : Nat :=
  if shift_option = 0 then operand * 2 ^ shift % 2 ^ 32
  else if shift_option = 1 then operand / 2 ^ shift
  else if shift_option = 2 then ((Int.fdiv (toInt32 operand) (2 ^ shift)).emod (2 ^ 32)).toNat
  else if shift_option = 3 then (operand / 2 ^ shift + operand * 2 ^ (32 - shift)) % 2 ^ 32
  else operand

/-- `apply_shift_64`. -/
def apply_shift_64 (operand shift : Nat) (shift_option : Nat) : Nat :=
  if shift_option = 0 then operand * 2 ^ shift % 2 ^ 64
  else if shift_option = 1 then operand / 2 ^ shift
  else if shift_option = 2 then ((Int.fdiv (toInt64 operand) (2 ^ shift)).emod (2 ^ 64)).toNat
  else if shift_option = 3 then (operand / 2 ^ shift + operand * 2 ^ (64 - shift)) % 2 ^ 64
  else operand

/-- `apply_logic` over `uint64_t`.  `ITP_AND = 0`, `ITP_OR = 1`,
`ITP_XOR = 2`, `ITP_AND_W_FLAGS = 3`; `~operand2` on a `uint64_t` below
`2 ^ 64` is `2 ^ 64 - 1 - operand2`.  The `opc` field is 2 bits wide, so
the C `switch` always matches; the final `else` arm is dead. -/
def apply_logic (src operand2 opc N : Nat) : Nat :=
  let op2 := if N ≠ 0 then 2 ^ 64 - 1 - operand2 % 2 ^ 64 else operand2
  if opc = 0 ∨ opc = 3 then src &&& op2
  else if opc = 1 then src ||| op2
  else if opc = 2 then src ^^^ op2
  else 0

/-! ## Executors (`cpu.c`) -/

/-- `exec_imm_arithmetic`. -/
def exec_imm_arithmetic (inst : ImmArith) (s : CPU) : CPU :=
  let operand2 := if inst.sh ≠ 0 then inst.imm12 * 2 ^ 12 else inst.imm12
  if inst.sf ≠ 0 then
    apply_arithmetic_64 s (get_reg_value_64 s inst.rn) operand2 inst.rd inst.opc_flag inst.opc_op
  else
    apply_arithmetic_32 s (get_reg_value_32 s inst.rn) operand2 inst.rd inst.opc_flag inst.opc_op

/-- `exec_wide_move`.  `ITP_MOVN = 0`, `ITP_MOVZ = 2`, `ITP_MOVK = 3`. -/
def exec_wide_move (inst : ImmWide) (s : CPU) : CPU :=
  if inst.opc = 3 then
    let position := 16 * inst.hw
    let register_value := get_reg_value_64 s inst.rd
    let mask := 2 ^ 64 - 1 - 0xFFFF * 2 ^ position
    let register_value := register_value &&& mask
    let register_value := register_value ||| inst.imm16 * 2 ^ position
    let register_value := if inst.sf = 0 then register_value % 2 ^ 32 else register_value
    set_reg_value s inst.rd register_value
  else
    let operand := inst.imm16 * 2 ^ (inst.hw * 16)
    let operand := if inst.opc = 0 then 2 ^ 64 - 1 - operand else operand
    let operand := if inst.sf = 0 then operand % 2 ^ 32 else operand
    set_reg_value s inst.rd operand

/-- `exec_reg_arithmetic`. -/
def exec_reg_arithmetic (inst : RegArith) (s : CPU) : CPU :=
  if inst.sf ≠ 0 then
    let operand2 := apply_shift_64 (get_reg_value_64 s inst.rm) inst.operand inst.shift
    apply_arithmetic_64 s (get_reg_value_64 s inst.rn) operand2 inst.rd inst.opc_flag inst.opc_op
  else
    let operand2 := apply_shift_32 (get_reg_value_32 s inst.rm) inst.operand inst.shift
    apply_arithmetic_32 s (get_reg_value_32 s inst.rn) operand2 inst.rd inst.opc_flag inst.opc_op

/-- `exec_reg_logic`. -/
def exec_reg_logic (inst : RegLogic) (s : CPU) : CPU :=
  if inst.sf ≠ 0 then
    let operand2 := apply_shift_64 (get_reg_value_64 s inst.rm) inst.operand inst.shift
    let result := apply_logic (get_reg_value_64 s inst.rn) operand2 inst.opc inst.N
    let ps :=
      if inst.opc = 3 then
        { negative_flag := result.testBit 63, zero_flag := decide (result = 0)
          overflow_flag := false, carry_flag := false }
      else s.pstate
    set_reg_value { s with pstate := ps } inst.rd result
  else
    let operand2 := apply_shift_32 (get_reg_value_32 s inst.rm) inst.operand inst.shift
    let result := apply_logic (get_reg_value_32 s inst.rn) operand2 inst.opc inst.N % 2 ^ 32
    let ps :=
      if inst.opc = 3 then
        { negative_flag := result.testBit 31, zero_flag := decide (result = 0)
          overflow_flag := false, carry_flag := false }
      else s.pstate
    set_reg_value { s with pstate := ps } inst.rd result

/-- `exec_reg_multiply`, including the dead `ra == 32` test of the C code
(`ra` is a 5-bit field).  The `__uint128_t` temporary receives a value
already computed in `uint64_t` (resp. `uint32_t`) arithmetic, so the
result is simply taken mod `2 ^ 64` (resp. `2 ^ 32`). -/
def exec_reg_multiply (inst : RegMultiply) (s : CPU) : CPU :=
  if inst.sf ≠ 0 then
    let rn_val := get_reg_value_64 s inst.rn
    let rm_val := get_reg_value_64 s inst.rm
    let ra_val := if inst.ra = 32 then 0 else get_reg_value_64 s inst.ra
    let result :=
      if inst.x ≠ 0 then (ra_val + (2 ^ 64 - rn_val * rm_val % 2 ^ 64)) % 2 ^ 64
      else (ra_val + rn_val * rm_val) % 2 ^ 64
    set_reg_value s inst.rd result
  else
    let rn_val := get_reg_value_32 s inst.rn
    let rm_val := get_reg_value_32 s inst.rm
    let ra_val := if inst.ra = 32 then 0 else get_reg_value_32 s inst.ra
    let result :=
      if inst.x ≠ 0 then (ra_val + (2 ^ 32 - rn_val * rm_val % 2 ^ 32)) % 2 ^ 32
      else (ra_val + rn_val * rm_val) % 2 ^ 32
    set_reg_value s inst.rd result

/-- The same executor with the dead `ra == 32` branch removed: the
accumulator is always read through the register file. -/
def exec_reg_multiply_via_regfile (inst : RegMultiply) (s : CPU) : CPU :=
  if inst.sf ≠ 0 then
    let rn_val := get_reg_value_64 s inst.rn
    let rm_val := get_reg_value_64 s inst.rm
    let ra_val := get_reg_value_64 s inst.ra
    let result :=
      if inst.x ≠ 0 then (ra_val + (2 ^ 64 - rn_val * rm_val % 2 ^ 64)) % 2 ^ 64
      else (ra_val + rn_val * rm_val) % 2 ^ 64
    set_reg_value s inst.rd result
  else
    let rn_val := get_reg_value_32 s inst.rn
    let rm_val := get_reg_value_32 s inst.rm
    let ra_val := get_reg_value_32 s inst.ra
    let result :=
      if inst.x ≠ 0 then (ra_val + (2 ^ 32 - rn_val * rm_val % 2 ^ 32)) % 2 ^ 32
      else (ra_val + rn_val * rm_val) % 2 ^ 32
    set_reg_value s inst.rd result

/-- `exec_dt_imm_offset`.  The `uint32_t address` truncates the 64-bit
sum. -/
def exec_dt_imm_offset (inst : DTImmOffset) (s : CPU) : Option CPU :=
  if inst.sf ≠ 0 then
    let address := (get_reg_value_64 s inst.xn + inst.imm12 * 8) % 2 ^ 32
    if inst.L ≠ 0 then
      (get_double_word s.mem address).map fun v => set_reg_value s inst.rt v
    else
      (set_double_word s.mem address (get_reg_value_64 s inst.rt)).map
        fun m => { s with mem := m }
  else
    let address := (get_reg_value_64 s inst.xn + inst.imm12 * 4) % 2 ^ 32
    if inst.L ≠ 0 then
      (get_word s.mem address).map fun v => set_reg_value s inst.rt v
    else
      (set_word s.mem address (get_reg_value_32 s inst.rt)).map
        fun m => { s with mem := m }

/-- `exec_dt_reg_offset`. -/
def exec_dt_reg_offset (inst : DTRegOffset) (s : CPU) : Option CPU :=
  let address := (get_reg_value_64 s inst.xn + get_reg_value_64 s inst.xm) % 2 ^ 32
  if inst.sf ≠ 0 then
    if inst.L ≠ 0 then
      (get_double_word s.mem address).map fun v => set_reg_value s inst.rt v
    else
      (set_double_word s.mem address (get_reg_value_64 s inst.rt)).map
        fun m => { s with mem := m }
  else
    if inst.L ≠ 0 then
      (get_word s.mem address).map fun v => set_reg_value s inst.rt v
    else
      (set_word s.mem address (get_reg_value_32 s inst.rt)).map
        fun m => { s with mem := m }

/-- `exec_dt_load_literal`: `address = PC + sign_extend(simm19,19) * 4`
truncated to `uint32_t`. -/
def exec_dt_load_literal (inst : DTLoadLiteral) (s : CPU) : Option CPU :=
  let address := (((s.pc : Int) + sign_extend inst.simm19 19 * 4).emod (2 ^ 32)).toNat
  if inst.sf ≠ 0 then
    (get_double_word s.mem address).map fun v => set_reg_value s inst.rt v
  else
    (get_word s.mem address).map fun v => set_reg_value s inst.rt v

/-- `exec_dt_pre_index`: the new address is written back to `xn` before the
access; the access then happens on the updated state. -/
def exec_dt_pre_index (inst : DTPrePostIndex) (s : CPU) : Option CPU :=
  let new_address :=
    (((get_reg_value_64 s inst.xn : Int) + sign_extend inst.simm9 9).emod (2 ^ 32)).toNat
  let s1 := set_reg_value s inst.xn new_address
  if inst.sf ≠ 0 then
    if inst.L ≠ 0 then
      (get_double_word s1.mem new_address).map fun v => set_reg_value s1 inst.rt v
    else
      (set_double_word s1.mem new_address (get_reg_value_64 s1 inst.rt)).map
        fun m => { s1 with mem := m }
  else
    if inst.L ≠ 0 then
      (get_word s1.mem new_address).map fun v => set_reg_value s1 inst.rt v
    else
      (set_word s1.mem new_address (get_reg_value_32 s1 inst.rt)).map
        fun m => { s1 with mem := m }

/-- `exec_dt_post_index`: access at the (32-bit truncated) value of `xn`,
then write `address + sign_extend(simm9, 9)` back to `xn`.  Note the C
source stores a **double word of the full 64-bit `rt`** in the 32-bit
(`sf = 0`) store branch. -/
def exec_dt_post_index (inst : DTPrePostIndex) (s : CPU) : Option CPU :=
  let address : Nat := get_reg_value_64 s inst.xn % 2 ^ 32
  let writeback := fun (s1 : CPU) =>
    set_reg_value s1 inst.xn
      ((((address : Int) + sign_extend inst.simm9 9).emod (2 ^ 64)).toNat)
  if inst.sf ≠ 0 then
    if inst.L ≠ 0 then
      (get_double_word s.mem address).map fun v => writeback (set_reg_value s inst.rt v)
    else
      (set_double_word s.mem address (get_reg_value_64 s inst.rt)).map
        fun m => writeback { s with mem := m }
  else
    if inst.L ≠ 0 then
      (get_word s.mem address).map fun v => writeback (set_reg_value s inst.rt v)
    else
      (set_double_word s.mem address (get_reg_value_64 s inst.rt)).map
        fun m => writeback { s with mem := m }

/-- `exec_branch_uncond`. -/
def exec_branch_uncond (inst : BranchUncond) (s : CPU) : CPU :=
  increase_pc s (sign_extend inst.simm26 26 * INSTR_SIZE)

/-- `exec_branch_cond`.  Condition values: EQ 0, NE 1, GE 10, LT 11,
GT 12, LE 13, AL 14; anything else takes the `default` arm (condition
false). -/
def exec_branch_cond (inst : BranchCond) (s : CPU) : CPU :=
  let offset := sign_extend inst.simm19 19 * INSTR_SIZE
  let condition :=
    if inst.cond = 0 then s.pstate.zero_flag
    else if inst.cond = 1 then !s.pstate.zero_flag
    else if inst.cond = 10 then s.pstate.negative_flag == s.pstate.overflow_flag
    else if inst.cond = 11 then s.pstate.negative_flag != s.pstate.overflow_flag
    else if inst.cond = 12 then
      !s.pstate.zero_flag && (s.pstate.negative_flag == s.pstate.overflow_flag)
    else if inst.cond = 13 then
      !(!s.pstate.zero_flag && (s.pstate.negative_flag == s.pstate.overflow_flag))
    else if inst.cond = 14 then true
    else false
  if condition then increase_pc s offset else increment_pc s

/-- `exec_branch_reg`: `PC = xn`. -/
def exec_branch_reg (inst : BranchReg) (s : CPU) : CPU :=
  { s with pc := get_reg_value_64 s inst.xn }

/-- `decode_and_execute`: the dispatch cascade of `cpu.c`, flattened.
Each C `if` block either returns or falls through to the next test, so
the cascade below lists the tests in the order the C code reaches them:
branch group (`gen_branch.op0 = 5`, bits 26–28), DP-immediate
(`gen_dp_imm.op0 = 4` with `opi` at bits 23–25), DP-register
(`gen_dp_reg.op0 = 5`, bits 25–27, with `M` at bit 28 and `id` at
bit 24), and data transfer (`op0_1` bit 27 = 1 and `op0_2` bit 25 = 0,
with `id` bit 31, `U` bit 24, `id2` bit 21, `I` bit 11).  An
unrecognised word is a fatal decode error (`none`). -/
def decode_and_execute (w : Nat) (s : CPU) : Option CPU :=
  if getField w 26 3 = 5 then
    if getField w 30 2 = 0 then some (exec_branch_uncond (decodeBranchUncond w) s)
    else if getField w 30 2 = 1 then some (exec_branch_cond (decodeBranchCond w) s)
    else some (exec_branch_reg (decodeBranchReg w) s)
  else if getField w 26 3 = 4 ∧ getField w 23 3 = 2 then
    some (exec_imm_arithmetic (decodeImmArith w) s)
  else if getField w 26 3 = 4 ∧ getField w 23 3 = 5 then
    some (exec_wide_move (decodeImmWide w) s)
  else if getField w 25 3 = 5 ∧ getField w 28 1 = 1 then
    some (exec_reg_multiply (decodeRegMultiply w) s)
  else if getField w 25 3 = 5 ∧ getField w 24 1 = 1 then
    some (exec_reg_arithmetic (decodeRegArith w) s)
  else if getField w 25 3 = 5 ∧ getField w 24 1 = 0 then
    some (exec_reg_logic (decodeRegLogic w) s)
  else if getField w 27 1 = 1 ∧ getField w 25 1 = 0 ∧ getField w 31 1 = 0 then
    exec_dt_load_literal (decodeDTLoadLiteral w) s
  else if getField w 27 1 = 1 ∧ getField w 25 1 = 0 ∧ getField w 24 1 = 1 then
    exec_dt_imm_offset (decodeDTImmOffset w) s
  else if getField w 27 1 = 1 ∧ getField w 25 1 = 0 ∧ getField w 21 1 = 1 then
    exec_dt_reg_offset (decodeDTRegOffset w) s
  else if getField w 27 1 = 1 ∧ getField w 25 1 = 0 ∧ getField w 11 1 = 1 then
    exec_dt_pre_index (decodeDTPrePostIndex w) s
  else if getField w 27 1 = 1 ∧ getField w 25 1 = 0 then
    exec_dt_post_index (decodeDTPrePostIndex w) s
  else none

/-- `run_cpu`, fuel-indexed.  Each iteration fetches the word at the
(`uint32_t`-truncated) PC, stops *before executing* if it is the HALT
sentinel, otherwise decodes and executes it, and auto-increments the PC
unless the word was in the branch group.  `none` means the fuel ran out
or a fatal error (bad fetch / decode) occurred. -/
def run_cpu : Nat → CPU → Option CPU
  | 0, _ => none
  | fuel + 1, s =>
    match get_word s.mem (s.pc % 2 ^ 32) with
    | none => none
    | some w =>
      if w = HALT_INSTRUCTION then some s
      else
        match decode_and_execute w s with
        | none => none
        | some s' =>
          run_cpu fuel (if getField w 26 3 ≠ 5 then increment_pc s' else s')

/-- `step_instruction` (debugger entry point): one decode/execute step,
with the PC auto-increment for non-branch words; returns whether the
executed word was not HALT. -/
def step_instruction (s : CPU) : Option (CPU × Bool) :=
  match get_word s.mem (s.pc % 2 ^ 32) with
  | none => none
  | some w =>
    match decode_and_execute w s with
    | none => none
    | some s' =>
      some (if getField w 26 3 ≠ 5 then increment_pc s' else s',
            decide (w ≠ HALT_INSTRUCTION))

/-- The four PSTATE characters of the `print_cpu` dump line
(`"PSTATE : %s%s%s%s"` with `N`/`Z`/`C`/`V` or `-`). -/
def pstate_chars (ps : processor_state) : List Char :=
  [if ps.negative_flag then 'N' else '-',
   if ps.zero_flag then 'Z' else '-',
   if ps.carry_flag then 'C' else '-',
   if ps.overflow_flag then 'V' else '-']

/-- The memory image of the two-word program `movz x0, #5` (encoding
`0xD28000A0`) followed by the HALT word `and x0, x0, x0`
(`0x8A000000`), loaded little-endian at address 0 as
`load_instructions_to_memory` does. -/
def movz_halt_mem : Memory := fun i =>
  ([0xA0, 0x00, 0x80, 0xD2, 0x00, 0x00, 0x00, 0x8A].getD i 0 : Nat)

/-- The emulator's state just after `init_cpu` on that program. -/
def movz_halt_cpu : CPU := { cpu0 with mem := movz_halt_mem }

/-! ## Symbol table (`symbol_table.c`)

The two `HashMap`s keyed by label string are modelled as association
lists (`hashmap_set` updates in place or appends); the per-label `DArray`
of reference addresses is a `List Nat` in insertion order, which is the
order `darray_iterator` yields it in C. -/

/-- C strings. -/
abbrev CStr := List Char

/-- `hashmap_contains`. -/
def hashmap_contains {α : Type} (m : List (CStr × α)) (key : CStr) : Bool :=
  (m.lookup key).isSome

/-- `hashmap_get` (`none` models the C `NULL`). -/
def hashmap_get {α : Type} (m : List (CStr × α)) (key : CStr) : Option α :=
  m.lookup key

/-- `hashmap_set`: update the value if the key is present, else insert. -/
def hashmap_set {α : Type} (m : List (CStr × α)) (key : CStr) (value : α) :
    List (CStr × α) :=
  if hashmap_contains m key then
    m.map fun p => if p.1 = key then (key, value) else p
  else m ++ [(key, value)]

/-- The state behind `symbol_table.c`: `labels` maps a defined label to
its address, `addresses` maps a pending label to the addresses of the
words that referenced it. -/
structure SymbolTable where
  labels : List (CStr × Nat)
  addresses : List (CStr × List Nat)

/-- The empty symbol table built by `symbol_table_init`. -/
def symbol_table_empty : SymbolTable := { labels := [], addresses := [] }

/-- `modify_line`: recompute the branch/load displacement of the word at
`instruction_address` once `literal_address` is known.
`int offset = (literal_address - instruction_address) / INSTR_SIZE` is
computed in `uint32_t` arithmetic (wrap-around subtraction, unsigned
division).  The word is patched through its bit-field view: `simm26` for
an unconditional branch (`op0` bits 26–28 = 5, `id` bits 30–31 = 0),
`simm19` for a conditional branch (`id` = 1) or a DT load literal
(bit 27 = 1, bit 25 = 0, bit 31 = 0).  Any other encoding hits the
`exit(EXIT_FAILURE)` arm (`none`). -/
def modify_line_offset (instruction_address literal_address : Nat) : Nat :=
  (literal_address % 2 ^ 32 + 2 ^ 32 - instruction_address % 2 ^ 32) % 2 ^ 32 / INSTR_SIZE

def modify_line (w instruction_address literal_address : Nat) : Option Nat :=
  if getField w 26 3 = 5 ∧ getField w 30 2 = 0 then
    some (setField w 0 26 (modify_line_offset instruction_address literal_address))
  else if getField w 26 3 = 5 ∧ getField w 30 2 = 1 then
    some (setField w 5 19 (modify_line_offset instruction_address literal_address))
  else if getField w 27 1 = 1 ∧ getField w 25 1 = 0 ∧ getField w 31 1 = 0 then
    some (setField w 5 19 (modify_line_offset instruction_address literal_address))
  else none

/-- The back-patching loop of `symbol_table_add_label`: for each recorded
reference address `R` (in insertion order), rewrite the word at index
`R / INSTR_SIZE` with `modify_line`.  An out-of-range index (impossible
under the pending invariant) or an unpatchable word aborts (`none`). -/
def backpatch : List Nat → List Nat → Nat → Option (List Nat)
  | instructions, [], _ => some instructions
  | instructions, r :: rest, literal_address =>
    (instructions[r / INSTR_SIZE]?).bind fun w =>
      (modify_line w r literal_address).bind fun w' =>
        backpatch (instructions.set (r / INSTR_SIZE) w') rest literal_address

/-- `symbol_table_add_label`: redefinition is fatal (`assert_msg`); the
label is stored in `labels`; if it has pending references they are all
back-patched.  (The C code leaves the stale `addresses` entry in place —
it is never consulted again because lookups check `labels` first.) -/
def symbol_table_add_label (instructions : List Nat) (literal_address : Nat)
    (label : CStr) (st : SymbolTable) : Option (List Nat × SymbolTable) :=
  if hashmap_contains st.labels label then none
  else
    let st' := { st with labels := hashmap_set st.labels label literal_address }
    match hashmap_get st.addresses label with
    | none => some (instructions, st')
    | some refs =>
      (backpatch instructions refs literal_address).map fun instructions' =>
        (instructions', st')

/-- `symbol_table_get_address`: for a defined label, the displacement
`((int) literal_address - (int) instruction_address) / INSTR_SIZE`
(C `int` division truncates toward zero: `Int.tdiv`); otherwise record the
reference in `addresses` and return the 0 placeholder. -/
def symbol_table_get_address (instruction_address : Nat) (label : CStr)
    (st : SymbolTable) : Int × SymbolTable :=
  match hashmap_get st.labels label with
  | some literal_address =>
    (Int.tdiv ((literal_address : Int) - (instruction_address : Int)) INSTR_SIZE, st)
  | none =>
    match hashmap_get st.addresses label with
    | some refs =>
      (0, { st with addresses := hashmap_set st.addresses label (refs ++ [instruction_address]) })
    | none =>
      (0, { st with addresses := hashmap_set st.addresses label [instruction_address] })

/-! ## Encoder helpers (`decode_helper.c`) -/

/-- String literal as a C string. -/
def cs (s : String) : CStr := s.data

/-- `is_label`: last character is `':'`. -/
def is_label (s : CStr) : Bool := s.getLast? = some ':'

/-- `is_label_literal`: `[A-Za-z_.][A-Za-z0-9$_.]*`. -/
def is_label_literal (s : CStr) : Bool :=
  match s with
  | [] => false
  | c :: rest =>
    (c.isAlpha || c = '_' || c = '.') &&
    rest.all fun d => d.isAlphanum || d = '$' || d = '_' || d = '.'

/-- `is_directive`: first character is `'.'`. -/
def is_directive (s : CStr) : Bool := s.headD '\x00' = '.'

/-- `is_int_directive`. -/
def is_int_directive (s : CStr) : Bool := s = cs ".int"

/-- `is_bit_mode_32` macro: `str[0] == 'w'`. -/
def is_bit_mode_32 (s : CStr) : Bool := s.headD '\x00' = 'w'

/-- `is_bit_mode_64` macro: `str[0] == 'x'`. -/
def is_bit_mode_64 (s : CStr) : Bool := s.headD '\x00' = 'x'

/-- `is_zero_register` macro: `strcmp(str + 1, "zr") == 0`. -/
def is_zero_register (s : CStr) : Bool := s.drop 1 = cs "zr"

/-- `is_valid_register` macro. -/
def is_valid_register (s : CStr) : Bool :=
  is_bit_mode_32 s || is_bit_mode_64 s || is_zero_register s

/-- `is_immediate` macro: `str[0] == '#'`. -/
def is_immediate (s : CStr) : Bool := s.headD '\x00' = '#'

/-- `is_hex_number` macro: `strncmp(str, "0x", 2) == 0`. -/
def is_hex_number (s : CStr) : Bool := s.take 2 = cs "0x"

/-- `is_set_flags` macro: a 4-letter mnemonic sets flags
(`adds`/`subs` vs `add`/`sub`). -/
def is_set_flags (s : CStr) : Bool := s.length = 4

/-- `is_pre_index` macro: last character is `'!'`. -/
def is_pre_index (s : CStr) : Bool := s.getLast? = some '!'

/-- The digit-consuming loop of `atoi`. -/
def atoi_nat : List Char → Nat → Nat
  | [], acc => acc
  | c :: rest, acc =>
    if c.isDigit then atoi_nat rest (acc * 10 + (c.toNat - 48)) else acc

/-- `atoi`: optional minus sign, then a decimal-digit prefix. -/
def atoi (s : CStr) : Int :=
  match s with
  | '-' :: rest => - (atoi_nat rest 0 : Int)
  | _ => (atoi_nat s 0 : Int)

def is_hex_digit (c : Char) : Bool :=
  c.isDigit || ('a' ≤ c && c ≤ 'f') || ('A' ≤ c && c ≤ 'F')

def hex_val (c : Char) : Nat :=
  if c.isDigit then c.toNat - 48
  else if 'a' ≤ c ∧ c ≤ 'f' then c.toNat - 87
  else c.toNat - 55

def hex_nat : List Char → Nat → Nat
  | [], acc => acc
  | c :: rest, acc =>
    if is_hex_digit c then hex_nat rest (acc * 16 + hex_val c) else acc

/-- `strtol(str, NULL, 16)`: an optional `0x`/`0X` prefix, then a
hex-digit prefix. -/
def strtol16 (s : CStr) : Nat :=
  match s with
  | '0' :: 'x' :: rest => hex_nat rest 0
  | '0' :: 'X' :: rest => hex_nat rest 0
  | _ => hex_nat s 0

/-- `read_reg_value`: `assert_msg(is_valid_register(...))` aborts on a
non-register token (`none`); `rzr`/`xzr`/`wzr` is register 31; otherwise
`atoi` after the mode letter, truncated by the `unsigned int` return. -/
def read_reg_value (s : CStr) : Option Nat :=
  if ¬ is_valid_register s then none
  else if is_zero_register s then some 31
  else some ((atoi (s.drop 1)).emod (2 ^ 32)).toNat

/-- `read_imm_value`: strip an optional `#`; hex via `strtol` base 16,
else `atoi`; the `unsigned int` result truncates mod `2 ^ 32`. -/
def read_imm_value (s : CStr) : Nat :=
  let s := if is_immediate s then s.drop 1 else s
  if is_hex_number s then strtol16 s % 2 ^ 32
  else ((atoi s).emod (2 ^ 32)).toNat

/-- `read_shift_type`: `lsl`/`lsr`/`asr`/`ror`, else fatal. -/
def read_shift_type (s : CStr) : Option Nat :=
  if s = cs "lsl" then some 0
  else if s = cs "lsr" then some 1
  else if s = cs "asr" then some 2
  else if s = cs "ror" then some 3
  else none

/-- `read_branch_cond_type`: requires the `b.` head, then matches the
condition suffix. -/
def read_branch_cond_type (s : CStr) : Option Nat :=
  if s.take 2 ≠ cs "b." then none
  else
    let suffix := s.drop 2
    if suffix = cs "eq" then some 0
    else if suffix = cs "ne" then some 1
    else if suffix = cs "ge" then some 10
    else if suffix = cs "lt" then some 11
    else if suffix = cs "gt" then some 12
    else if suffix = cs "le" then some 13
    else if suffix = cs "al" then some 14
    else none

/-- `is_opcode`: membership test by `strcmp`. -/
def is_opcode (opcode : CStr) (opcodes : List CStr) : Bool :=
  opcodes.contains opcode

/-! ## Encoder (`decode.c`)

The 5-slot operand array of `decode` is a length-5 list of
`Option CStr` (`none` = the C `NULL`). -/

abbrev Operands := List (Option CStr)

def getOp (o : Operands) (i : Nat) : Option CStr := o.getD i none

def setOp (o : Operands) (i : Nat) (v : Option CStr) : Operands := o.set i v

/-- The operand slots after tokenisation: the tokens in order, padded
with `NULL` to the 5 slots of `char *operands[MAX_NUM_OPERANDS]`. -/
def mkOperands (tokens : List CStr) : Operands :=
  (tokens.map some ++ List.replicate 5 none).take 5

/-- The tokenisation done by `decode`: `strtok(line, "/")` keeps the text
before the first `'/'` (comment stripping), then repeated
`strtok(…, ", ")` splits on commas and blanks, skipping empty tokens. -/
def tokenize_aux : List Char → List Char → List CStr
  | [], cur => if cur = [] then [] else [cur.reverse]
  | c :: rest, cur =>
    if c = ',' ∨ c = ' ' then
      if cur = [] then tokenize_aux rest []
      else cur.reverse :: tokenize_aux rest []
    else tokenize_aux rest (c :: cur)

def tokenize (line : CStr) : List CStr :=
  tokenize_aux (line.takeWhile (· ≠ '/')) []

/-- `convert_aliases`: rewrite alias mnemonics in place.  For the
aliases that may carry a shift suffix (`neg`, `negs`, `cmp`, `cmn`,
`tst`) the shift operands are first moved one slot right; then each
alias rearranges the slots exactly as the C assignments do (each slot is
read before it is overwritten). -/
def convert_aliases (opcode : CStr) (o : Operands) : CStr × Operands :=
  let o :=
    if is_opcode opcode [cs "neg", cs "negs", cs "cmp", cs "cmn", cs "tst"] then
      if (getOp o 2).isSome then setOp (setOp o 4 (getOp o 3)) 3 (getOp o 2) else o
    else o
  if opcode = cs "neg" then
    (cs "sub", setOp (setOp o 2 (getOp o 1)) 1 (some (cs "rzr")))
  else if opcode = cs "negs" then
    (cs "subs", setOp (setOp o 2 (getOp o 1)) 1 (some (cs "rzr")))
  else if opcode = cs "cmn" then
    let o := setOp o 2 (getOp o 1)
    let o := setOp o 1 (getOp o 0)
    (cs "adds", setOp o 0 (some (cs "rzr")))
  else if opcode = cs "cmp" then
    let o := setOp o 2 (getOp o 1)
    let o := setOp o 1 (getOp o 0)
    (cs "subs", setOp o 0 (some (cs "rzr")))
  else if opcode = cs "mul" then
    (cs "madd", setOp o 3 (some (cs "rzr")))
  else if opcode = cs "mneg" then
    (cs "msub", setOp o 3 (some (cs "rzr")))
  else if opcode = cs "tst" then
    let o := setOp o 2 (getOp o 1)
    let o := setOp o 1 (getOp o 0)
    (cs "ands", setOp o 0 (some (cs "rzr")))
  else if opcode = cs "mvn" then
    (cs "orn", setOp (setOp o 2 (getOp o 1)) 1 (some (cs "rzr")))
  else if opcode = cs "mov" then
    (cs "orr", setOp (setOp o 2 (getOp o 1)) 1 (some (cs "rzr")))
  else (opcode, o)

/-- `assemble_multiply` (`madd`, `msub`): four register operands.
Field writes follow `RegMultiply`'s layout. -/
def assemble_multiply (opcode : CStr) (o : Operands) : Option Nat := do
  let op1 ← getOp o 0
  let op2 ← getOp o 1
  let op3 ← getOp o 2
  let op4 ← getOp o 3
  let w := setField 0 25 3 5
  let w := setField w 28 1 1
  let w := setField w 24 1 1
  let w := setField w 31 1 (if is_bit_mode_64 op1 then 1 else 0)
  let rd ← read_reg_value op1
  let rn ← read_reg_value op2
  let rm ← read_reg_value op3
  let ra ← read_reg_value op4
  let w := setField w 0 5 rd
  let w := setField w 5 5 rn
  let w := setField w 16 5 rm
  let w := setField w 10 5 ra
  some (setField w 15 1 (if opcode = cs "msub" ∨ opcode = cs "mneg" then 1 else 0))

/-- `assemble_add_sub` (`add`, `adds`, `sub`, `subs`): immediate or
register form. -/
def assemble_add_sub (opcode : CStr) (o : Operands) : Option Nat := do
  let op1 ← getOp o 0
  let op2 ← getOp o 1
  let op3 ← getOp o 2
  let sf := if is_zero_register op1 then is_bit_mode_64 op2 else is_bit_mode_64 op1
  let w := setField 0 31 1 (if sf then 1 else 0)
  let w := setField w 30 1 (if opcode.take 3 = cs "sub" then 1 else 0)
  let w := setField w 29 1 (if is_set_flags opcode then 1 else 0)
  let rn ← read_reg_value op2
  let rd ← read_reg_value op1
  let w := setField w 5 5 rn
  let w := setField w 0 5 rd
  if is_immediate op3 then
    let w := setField w 26 3 4
    let w := setField w 23 3 2
    let w :=
      match getOp o 4 with
      | some op5 => setField w 22 1 (if read_imm_value op5 ≠ 0 then 1 else 0)
      | none => w
    some (setField w 10 12 (read_imm_value op3))
  else do
    let w := setField w 25 3 5
    let w := setField w 24 1 1
    let rm ← read_reg_value op3
    let w := setField w 16 5 rm
    match getOp o 3 with
    | some op4 => do
      let sh ← read_shift_type op4
      let op5 ← getOp o 4
      some (setField (setField w 22 2 sh) 10 6 (read_imm_value op5))
    | none => some w

/-- `assemble_wide_move` (`movn`, `movz`, `movk`). -/
def assemble_wide_move (opcode : CStr) (o : Operands) : Option Nat := do
  let op1 ← getOp o 0
  let op2 ← getOp o 1
  let w := setField 0 23 3 5
  let w := setField w 26 3 4
  let sf := if is_zero_register op1 then is_bit_mode_64 op2 else is_bit_mode_64 op1
  let w := setField w 31 1 (if sf then 1 else 0)
  let w :=
    if opcode = cs "movn" then setField w 29 2 0
    else if opcode = cs "movk" then setField w 29 2 3
    else if opcode = cs "movz" then setField w 29 2 2
    else w
  let rd ← read_reg_value op1
  let w := setField w 0 5 rd
  let w := setField w 5 16 (read_imm_value op2)
  match getOp o 2 with
  | some _ => do
    let op4 ← getOp o 3
    some (setField w 21 2 (read_imm_value op4 / 16))
  | none => some w

/-- `assemble_logic` (`and`, `ands`, `bic`, `bics`, `orr`, `orn`, `eor`,
`eon`). -/
def assemble_logic (opcode : CStr) (o : Operands) : Option Nat := do
  let op1 ← getOp o 0
  let op2 ← getOp o 1
  let op3 ← getOp o 2
  let w := setField 0 25 3 5
  let sf := if is_zero_register op1 then is_bit_mode_64 op2 else is_bit_mode_64 op1
  let w := setField w 31 1 (if sf then 1 else 0)
  let w :=
    if opcode = cs "and" ∨ opcode = cs "bic" then setField w 29 2 0
    else if opcode = cs "orr" ∨ opcode = cs "orn" then setField w 29 2 1
    else if opcode = cs "eor" ∨ opcode = cs "eon" then setField w 29 2 2
    else if opcode = cs "ands" ∨ opcode = cs "bics" then setField w 29 2 3
    else w
  let w := setField w 21 1
    (if is_opcode opcode [cs "bic", cs "orn", cs "eon", cs "bics"] then 1 else 0)
  let w ←
    match getOp o 3 with
    | some op4 => do
      let sh ← read_shift_type op4
      let op5 ← getOp o 4
      pure (setField (setField w 22 2 sh) 10 6 (read_imm_value op5))
    | none => pure w
  let rd ← read_reg_value op1
  let rn ← read_reg_value op2
  let rm ← read_reg_value op3
  some (setField (setField (setField w 0 5 rd) 5 5 rn) 16 5 rm)

/-- `assemble_load_store` (`ldr`, `str`): load literal, zero offset,
pre-index, post-index, unsigned immediate offset or register offset, as
in the C cascade.  Only the load-literal path touches the symbol table. -/
def assemble_load_store (st : SymbolTable) (current_address : Nat)
    (opcode : CStr) (o : Operands) : Option (Nat × SymbolTable) := do
  let op1 ← getOp o 0
  let op2 ← getOp o 1
  let rt ← read_reg_value op1
  let w := setField 0 0 5 rt
  let w := setField w 30 1 (if is_bit_mode_64 op1 then 1 else 0)
  if (getOp o 2).isNone ∧ op2.headD '\x00' ≠ '[' then
    let w := setField w 27 1 1
    let w := setField w 28 2 1
    if is_label_literal op2 then
      let (off, st') := symbol_table_get_address current_address op2 st
      some (setField w 5 19 (off.emod (2 ^ 19)).toNat, st')
    else if is_immediate op2 then
      some (setField w 5 19 (read_imm_value op2 / INSTR_SIZE), st)
    else none
  else do
    let w := setField w 31 1 1
    let w := setField w 29 1 1
    let w := setField w 28 1 1
    let w := setField w 27 1 1
    let w := setField w 22 1 (if opcode = cs "ldr" then 1 else 0)
    let xn ← read_reg_value (op2.drop 1)
    let w := setField w 5 5 xn
    match getOp o 2 with
    | none => some (setField w 24 1 1, st)
    | some op3 =>
      if is_pre_index op3 then
        let w := setField w 11 1 1
        let w := setField w 10 1 1
        some (setField w 12 9 (read_imm_value op3.dropLast.dropLast), st)
      else if is_immediate op3 ∧ op3.getLast? ≠ some ']' then
        let w := setField w 10 1 1
        some (setField w 12 9 (read_imm_value op3), st)
      else if is_immediate op3 then
        let w := setField w 24 1 1
        let immediate := read_imm_value op3
        if getField w 30 1 ≠ 0 then some (setField w 10 12 (immediate / 8), st)
        else some (setField w 10 12 (immediate / 4), st)
      else if op3.getLast? = some ']' then do
        let w := setField w 21 1 1
        let w := setField w 10 6 26
        let xm ← read_reg_value op3.dropLast
        some (setField w 16 5 xm, st)
      else none

/-- `assemble_branch` (`b`, `b.<cond>`, `br`). -/
def assemble_branch (st : SymbolTable) (current_address : Nat)
    (opcode : CStr) (o : Operands) : Option (Nat × SymbolTable) := do
  let op1 ← getOp o 0
  let w := setField 0 26 3 5
  if opcode = cs "b" then
    if is_label_literal op1 then
      let (off, st') := symbol_table_get_address current_address op1 st
      some (setField (setField w 30 2 0) 0 26 (off.emod (2 ^ 26)).toNat, st')
    else none
  else if opcode.take 2 = cs "b." then do
    let w := setField w 30 2 1
    let c ← read_branch_cond_type opcode
    let w := setField w 0 4 c
    if is_label_literal op1 then
      let (off, st') := symbol_table_get_address current_address op1 st
      some (setField w 5 19 (off.emod (2 ^ 19)).toNat, st')
    else none
  else if opcode = cs "br" then do
    let w := setField w 30 2 3
    let w := setField w 16 10 543
    let xn ← read_reg_value op1
    some (setField w 5 5 xn, st)
  else none

/-- `determine_and_assemble`: directive or mnemonic dispatch. -/
def determine_and_assemble (st : SymbolTable) (current_address : Nat)
    (opcode : CStr) (o : Operands) : Option (Nat × SymbolTable) :=
  if is_directive opcode then
    if is_int_directive opcode then do
      let op1 ← getOp o 0
      some (read_imm_value op1, st)
    else none
  else if is_opcode opcode [cs "add", cs "adds", cs "sub", cs "subs"] then
    (assemble_add_sub opcode o).map fun w => (w, st)
  else if is_opcode opcode [cs "madd", cs "msub"] then
    (assemble_multiply opcode o).map fun w => (w, st)
  else if is_opcode opcode
      [cs "and", cs "ands", cs "bic", cs "bics", cs "orn", cs "orr", cs "eor", cs "eon"] then
    (assemble_logic opcode o).map fun w => (w, st)
  else if is_opcode opcode [cs "movn", cs "movz", cs "movk"] then
    (assemble_wide_move opcode o).map fun w => (w, st)
  else if is_opcode opcode [cs "ldr", cs "str"] then
    assemble_load_store st current_address opcode o
  else if is_opcode opcode [cs "b", cs "br"] ∨ opcode.take 2 = cs "b." then
    assemble_branch st current_address opcode o
  else none

/-- The assembler's mutable state in `decode.c`: the emitted words, the
emit address, and the symbol table. -/
structure AsmState where
  instructions : List Nat
  current_address : Nat
  st : SymbolTable

def asm_init : AsmState :=
  { instructions := [], current_address := 0, st := symbol_table_empty }

/-- `decode`: tokenise one line; a label token defines a label at the
current address (the line emits nothing); otherwise the first token is
the mnemonic, aliases are rewritten, the line is assembled, the word is
appended and the emit address advances by 4.  A line whose tokenisation
is empty makes the C code call `is_label(NULL)`, whose `assert_msg`
aborts. -/
def decode_line (A : AsmState) (line : CStr) : Option AsmState :=
  match tokenize line with
  | [] => none
  | segment :: rest =>
    if is_label segment then
      (symbol_table_add_label A.instructions A.current_address segment.dropLast A.st).map
        fun p => { A with instructions := p.1, st := p.2 }
    else
      let (opcode, o) := convert_aliases segment (mkOperands rest)
      (determine_and_assemble A.st A.current_address opcode o).map
        fun p =>
          { instructions := A.instructions ++ [p.1]
            current_address := A.current_address + INSTR_SIZE
            st := p.2 }

/-- The line loop of `assemble` in the assembler's `main` translation
unit: `for_each_line_in_file(input, decode)`.  The input is the list of
(non-empty) source lines. -/
def assemble_lines : List CStr → AsmState → Option AsmState
  | [], A => some A
  | l :: ls, A => (decode_line A l).bind (assemble_lines ls)

/-- `assemble`: run the line loop from the initial state and, whatever is
left in the symbol table, hand `decode_get_instructions()` to
`write_to_binray_file` — the returned list is exactly the sequence of
words written to the output file.  Nothing between the last line and the
file write inspects the pending (`addresses`) map. -/
def assemble (lines : List CStr) : Option (List Nat) :=
  (assemble_lines lines asm_init).map fun A => A.instructions

/-! ## Derived predicates and concrete scenario states used by the
theorems -/

/-- A word has one of the three encodings `modify_line` accepts:
unconditional branch, conditional branch, or DT load literal. -/
def patchable (w : Nat) : Bool :=
  ((getField w 26 3 == 5) && (getField w 30 2 == 0)) ||
  ((getField w 26 3 == 5) && (getField w 30 2 == 1)) ||
  ((getField w 27 1 == 1) && (getField w 25 1 == 0) && (getField w 31 1 == 0))

/-- The displacement field of a patchable word: `simm26` for an
unconditional branch, `simm19` otherwise. -/
def dispField (w : Nat) : Nat :=
  if getField w 26 3 = 5 ∧ getField w 30 2 = 0 then getField w 0 26
  else getField w 5 19

/-- The label `end` of the unresolved-label scenario. -/
def end_label : CStr := cs "end"

/-- The two-line program `b end` / `and x0, x0, x0`, whose label `end`
is referenced but never defined. -/
def undef_label_prog : List CStr := [cs "b end", cs "and x0, x0, x0"]

/-- Decoded 32-bit post-index store instruction `str w2, [x1], #0`:
`sf = 0`, `L = 0`, `I = 0`, `simm9 = 0`, `xn = 1`, `rt = 2`. -/
def post_index_inst : DTPrePostIndex :=
  { sf := 0, L := 0, I := 0, simm9 := 0, xn := 1, rt := 2 }

/-- A state with `x1 = 16` (the store base) and
`x2 = 0xAABBCCDD11223344` (a value whose high 32 bits are non-zero). -/
def post_index_cpu : CPU :=
  { cpu0 with regs := fun i => if i = 1 then 16
                               else if i = 2 then 0xAABBCCDD11223344 else 0 }

/-! ## Bit-field lemmas -/

lemma two_pow_pos' (n : Nat) : 0 < 2 ^ n := Nat.pos_pow_of_pos n (by norm_num)

/-- `setField` leaves the bits below the field untouched. -/
lemma setField_mod_low (w p l v : Nat) : setField w p l v % 2 ^ p = w % 2 ^ p := by
  unfold setField
  rw [pow_add]
  have h : w % 2 ^ p + v % 2 ^ l * 2 ^ p + w / (2 ^ p * 2 ^ l) * (2 ^ p * 2 ^ l)
      = w % 2 ^ p + (v % 2 ^ l + w / (2 ^ p * 2 ^ l) * 2 ^ l) * 2 ^ p := by ring
  rw [h, Nat.add_mul_mod_self_right, Nat.mod_mod_of_dvd _ dvd_rfl]

lemma low_part_lt (w p l v : Nat) : w % 2 ^ p + v % 2 ^ l * 2 ^ p < 2 ^ (p + l) := by
  have h1 : w % 2 ^ p < 2 ^ p := Nat.mod_lt _ (two_pow_pos' p)
  have h2 : v % 2 ^ l ≤ 2 ^ l - 1 := by
    have := Nat.mod_lt v (two_pow_pos' l); omega
  have h3 : v % 2 ^ l * 2 ^ p ≤ (2 ^ l - 1) * 2 ^ p := Nat.mul_le_mul_right _ h2
  have h4 : (2 ^ l - 1) * 2 ^ p = 2 ^ l * 2 ^ p - 2 ^ p := by
    rw [Nat.sub_mul, one_mul]
  have h5 : 2 ^ p ≤ 2 ^ l * 2 ^ p := Nat.le_mul_of_pos_left _ (two_pow_pos' l)
  have h6 : 2 ^ (p + l) = 2 ^ l * 2 ^ p := by rw [pow_add]; ring
  omega

/-- `setField` leaves the bits above the field untouched. -/
lemma setField_div_high (w p l v : Nat) :
    setField w p l v / 2 ^ (p + l) = w / 2 ^ (p + l) := by
  unfold setField
  rw [Nat.add_mul_div_right _ _ (two_pow_pos' (p + l)),
      Nat.div_eq_of_lt (low_part_lt w p l v), Nat.zero_add]

/-- Reading back the field just written returns the (truncated) value. -/
lemma getField_setField_self (w p l v : Nat) :
    getField (setField w p l v) p l = v % 2 ^ l := by
  unfold getField setField
  have h : w % 2 ^ p + v % 2 ^ l * 2 ^ p + w / 2 ^ (p + l) * 2 ^ (p + l)
      = w % 2 ^ p + (v % 2 ^ l + w / 2 ^ (p + l) * 2 ^ l) * 2 ^ p := by
    rw [pow_add]; ring
  rw [h, Nat.add_mul_div_right _ _ (two_pow_pos' p),
      Nat.div_eq_of_lt (Nat.mod_lt _ (two_pow_pos' p)), Nat.zero_add,
      Nat.add_mul_mod_self_right, Nat.mod_mod_of_dvd _ dvd_rfl]

/-- A field disjoint from (below) the written one is unchanged. -/
lemma getField_setField_low (w p l v p2 l2 : Nat) (h : p2 + l2 ≤ p) :
    getField (setField w p l v) p2 l2 = getField w p2 l2 := by
  unfold getField
  rw [← Nat.mod_mul_right_div_self, ← Nat.mod_mul_right_div_self, ← pow_add,
      ← Nat.mod_mod_of_dvd (setField w p l v) (pow_dvd_pow 2 h),
      ← Nat.mod_mod_of_dvd w (pow_dvd_pow 2 h), setField_mod_low]

/-- A field disjoint from (above) the written one is unchanged. -/
lemma getField_setField_high (w p l v p2 l2 : Nat) (h : p + l ≤ p2) :
    getField (setField w p l v) p2 l2 = getField w p2 l2 := by
  unfold getField
  have hsplit : 2 ^ p2 = 2 ^ (p + l) * 2 ^ (p2 - (p + l)) := by
    rw [← pow_add]
    congr 1
    omega
  rw [hsplit, ← Nat.div_div_eq_div_mul, ← Nat.div_div_eq_div_mul, setField_div_high]

/-- Bits strictly below the written field are unchanged. -/
lemma testBit_setField_low (w p l v i : Nat) (h : i < p) :
    (setField w p l v).testBit i = w.testBit i := by
  have hf : ∀ x : Nat, x.testBit i = decide (getField x i 1 = 1) := by
    intro x
    rw [Nat.testBit_to_div_mod]
    unfold getField
    norm_num
  rw [hf, hf, getField_setField_low w p l v i 1 (by omega)]

/-- Bits at or above the end of the written field are unchanged. -/
lemma testBit_setField_high (w p l v i : Nat) (h : p + l ≤ i) :
    (setField w p l v).testBit i = w.testBit i := by
  have hf : ∀ x : Nat, x.testBit i = decide (getField x i 1 = 1) := by
    intro x
    rw [Nat.testBit_to_div_mod]
    unfold getField
    norm_num
  rw [hf, hf, getField_setField_high w p l v i 1 h]

/-! ## Memory lemmas -/

lemma swm_at0 (m : Memory) (a v : Nat) : set_word_mem m a v a = v % 2 ^ 8 := by
  unfold set_word_mem; rw [if_pos rfl]

lemma swm_at1 (m : Memory) (a v : Nat) :
    set_word_mem m a v (a + 1) = v / 2 ^ 8 % 2 ^ 8 := by
  unfold set_word_mem; rw [if_neg (by omega), if_pos rfl]

lemma swm_at2 (m : Memory) (a v : Nat) :
    set_word_mem m a v (a + 2) = v / 2 ^ 16 % 2 ^ 8 := by
  unfold set_word_mem; rw [if_neg (by omega), if_neg (by omega), if_pos rfl]

lemma swm_at3 (m : Memory) (a v : Nat) :
    set_word_mem m a v (a + 3) = v / 2 ^ 24 % 2 ^ 8 := by
  unfold set_word_mem
  rw [if_neg (by omega), if_neg (by omega), if_neg (by omega), if_pos rfl]

lemma sdwm_at0 (m : Memory) (a v : Nat) : set_double_word_mem m a v a = v % 2 ^ 8 := by
  unfold set_double_word_mem; rw [if_pos rfl]

lemma sdwm_at1 (m : Memory) (a v : Nat) :
    set_double_word_mem m a v (a + 1) = v / 2 ^ 8 % 2 ^ 8 := by
  unfold set_double_word_mem; rw [if_neg (by omega), if_pos rfl]

lemma sdwm_at2 (m : Memory) (a v : Nat) :
    set_double_word_mem m a v (a + 2) = v / 2 ^ 16 % 2 ^ 8 := by
  unfold set_double_word_mem; rw [if_neg (by omega), if_neg (by omega), if_pos rfl]

lemma sdwm_at3 (m : Memory) (a v : Nat) :
    set_double_word_mem m a v (a + 3) = v / 2 ^ 24 % 2 ^ 8 := by
  unfold set_double_word_mem
  rw [if_neg (by omega), if_neg (by omega), if_neg (by omega), if_pos rfl]

lemma sdwm_at4 (m : Memory) (a v : Nat) :
    set_double_word_mem m a v (a + 4) = v / 2 ^ 32 % 2 ^ 8 := by
  unfold set_double_word_mem
  rw [if_neg (by omega), if_neg (by omega), if_neg (by omega), if_neg (by omega),
      if_pos rfl]

lemma sdwm_at5 (m : Memory) (a v : Nat) :
    set_double_word_mem m a v (a + 5) = v / 2 ^ 40 % 2 ^ 8 := by
  unfold set_double_word_mem
  rw [if_neg (by omega), if_neg (by omega), if_neg (by omega), if_neg (by omega),
      if_neg (by omega), if_pos rfl]

lemma sdwm_at6 (m : Memory) (a v : Nat) :
    set_double_word_mem m a v (a + 6) = v / 2 ^ 48 % 2 ^ 8 := by
  unfold set_double_word_mem
  rw [if_neg (by omega), if_neg (by omega), if_neg (by omega), if_neg (by omega),
      if_neg (by omega), if_neg (by omega), if_pos rfl]

lemma sdwm_at7 (m : Memory) (a v : Nat) :
    set_double_word_mem m a v (a + 7) = v / 2 ^ 56 % 2 ^ 8 := by
  unfold set_double_word_mem
  rw [if_neg (by omega), if_neg (by omega), if_neg (by omega), if_neg (by omega),
      if_neg (by omega), if_neg (by omega), if_neg (by omega), if_pos rfl]

/-! ## Symbol-table lemmas -/

/-- Bit 27 set rules out `op0` bits 26–28 being `101`. -/
lemma bits263_ne_five (w : Nat) (h27 : getField w 27 1 = 1) :
    getField w 26 3 ≠ 5 := by
  unfold getField at *
  have hd : w / 2 ^ 27 = w / 2 ^ 26 / 2 := by
    rw [Nat.div_div_eq_div_mul]
    norm_num
  rw [hd] at h27
  norm_num at *
  omega

/-- `patchable` as a proposition. -/
lemma patchable_eq_true_iff (w : Nat) : patchable w = true ↔
    (getField w 26 3 = 5 ∧ getField w 30 2 = 0) ∨
    (getField w 26 3 = 5 ∧ getField w 30 2 = 1) ∨
    (getField w 27 1 = 1 ∧ getField w 25 1 = 0 ∧ getField w 31 1 = 0) := by
  unfold patchable
  simp [and_assoc, or_assoc]

/-- A successful `modify_line` means the word had one of the three
patchable encodings. -/
lemma modify_line_some_patchable (w ia la w' : Nat)
    (h : modify_line w ia la = some w') : patchable w = true := by
  unfold modify_line at h
  rw [patchable_eq_true_iff]
  split_ifs at h with h1 h2 h3
  · exact Or.inl h1
  · exact Or.inr (Or.inl h2)
  · exact Or.inr (Or.inr h3)

/-- The `uint32_t` offset computation of `modify_line` equals the exact
displacement for a (forward, in-range) reference. -/
lemma modify_line_offset_eq (ia la : Nat) (hia : ia ≤ la) (hla : la < 2 ^ 32) :
    modify_line_offset ia la = (la - ia) / 4 := by
  unfold modify_line_offset INSTR_SIZE
  omega

/-- On a patchable word, `modify_line` rewrites exactly the displacement
field to the (in-range) displacement. -/
lemma modify_line_patch (w ia la : Nat) (hia : ia ≤ la) (hla : la < 2 ^ 32)
    (hdisp : (la - ia) / 4 < 2 ^ 19) (hp : patchable w = true) :
    ∃ w', modify_line w ia la = some w' ∧ dispField w' = (la - ia) / 4 := by
  have hoff := modify_line_offset_eq ia la hia hla
  rw [patchable_eq_true_iff] at hp
  rcases hp with ⟨h1, h2⟩ | ⟨h1, h2⟩ | ⟨h1, h2, h3⟩
  · refine ⟨setField w 0 26 (modify_line_offset ia la), ?_, ?_⟩
    · unfold modify_line
      rw [if_pos ⟨h1, h2⟩]
    · have e1 : getField (setField w 0 26 (modify_line_offset ia la)) 26 3
          = getField w 26 3 := getField_setField_high _ _ _ _ _ _ (by norm_num)
      have e2 : getField (setField w 0 26 (modify_line_offset ia la)) 30 2
          = getField w 30 2 := getField_setField_high _ _ _ _ _ _ (by norm_num)
      unfold dispField
      rw [if_pos ⟨e1.trans h1, e2.trans h2⟩, getField_setField_self, hoff,
          Nat.mod_eq_of_lt (lt_of_lt_of_le hdisp (by norm_num))]
  · refine ⟨setField w 5 19 (modify_line_offset ia la), ?_, ?_⟩
    · unfold modify_line
      rw [if_neg (by simp [h2]), if_pos ⟨h1, h2⟩]
    · have e1 : getField (setField w 5 19 (modify_line_offset ia la)) 26 3
          = getField w 26 3 := getField_setField_high _ _ _ _ _ _ (by norm_num)
      have e2 : getField (setField w 5 19 (modify_line_offset ia la)) 30 2
          = getField w 30 2 := getField_setField_high _ _ _ _ _ _ (by norm_num)
      unfold dispField
      rw [if_neg (by simp [e2, h2]), getField_setField_self, hoff,
          Nat.mod_eq_of_lt hdisp]
  · have h5 := bits263_ne_five w h1
    refine ⟨setField w 5 19 (modify_line_offset ia la), ?_, ?_⟩
    · unfold modify_line
      rw [if_neg (by simp [h5]), if_neg (by simp [h5]), if_pos ⟨h1, h2, h3⟩]
    · have e1 : getField (setField w 5 19 (modify_line_offset ia la)) 26 3
          = getField w 26 3 := getField_setField_high _ _ _ _ _ _ (by norm_num)
      unfold dispField
      rw [if_neg (by simp [e1, h5]), getField_setField_self, hoff,
          Nat.mod_eq_of_lt hdisp]

/-- `backpatch` never touches a word whose index is not among the
patched reference indices. -/
lemma backpatch_getElem_not_mem :
    ∀ (refs ins : List Nat) (la : Nat) (ins' : List Nat) (j : Nat),
      backpatch ins refs la = some ins' →
      j ∉ refs.map (· / INSTR_SIZE) → ins'[j]? = ins[j]?
  | [], ins, la, ins', j, h, _ => by
    unfold backpatch at h
    injection h with h
    rw [h]
  | r :: rest, ins, la, ins', j, h, hj => by
    unfold backpatch at h
    simp only [List.map_cons, List.mem_cons, not_or] at hj
    rcases hj with ⟨hj1, hj2⟩
    rcases hw : ins[r / INSTR_SIZE]? with _ | w <;>
      rw [hw] at h <;> simp only [Option.none_bind, Option.some_bind] at h
    · exact absurd h (by simp)
    rcases hml : modify_line w r la with _ | w' <;>
      rw [hml] at h <;> simp only [Option.none_bind, Option.some_bind] at h
    · exact absurd h (by simp)
    have := backpatch_getElem_not_mem rest (ins.set (r / INSTR_SIZE) w') la ins' j h
      (by simpa using hj2)
    rw [this, List.getElem?_set_ne (fun he => hj1 he.symm)]

/-- Full success case of `backpatch`: with pairwise-distinct patch
indices, every patchable in-range forward reference ends up with its
displacement field set to the exact displacement. -/
lemma backpatch_spec :
    ∀ (refs ins : List Nat) (la : Nat),
      (refs.map (· / INSTR_SIZE)).Nodup →
      (∀ r ∈ refs, r ≤ la ∧ la < 2 ^ 32 ∧ (la - r) / 4 < 2 ^ 19 ∧
        ∃ w, ins[r / INSTR_SIZE]? = some w ∧ patchable w = true) →
      ∃ ins', backpatch ins refs la = some ins' ∧
        ∀ r ∈ refs, ∃ w', ins'[r / INSTR_SIZE]? = some w' ∧
          dispField w' = (la - r) / 4
  | [], ins, la, _, _ => ⟨ins, rfl, by simp⟩
  | r :: rest, ins, la, hnd, hall => by
    obtain ⟨hr1, hr2, hr3, w, hw, hpw⟩ := hall r (by simp)
    obtain ⟨w', hml, hdf⟩ := modify_line_patch w r la hr1 hr2 hr3 hpw
    have hlt : r / INSTR_SIZE < ins.length := by
      rcases List.getElem?_eq_some_iff.mp hw with ⟨hl, _⟩
      exact hl
    have hnotmem : (r / INSTR_SIZE) ∉ rest.map (· / INSTR_SIZE) := by
      have := hnd
      simp only [List.map_cons, List.nodup_cons] at this
      exact this.1
    have hall' : ∀ r' ∈ rest, r' ≤ la ∧ la < 2 ^ 32 ∧ (la - r') / 4 < 2 ^ 19 ∧
        ∃ u, (ins.set (r / INSTR_SIZE) w')[r' / INSTR_SIZE]? = some u ∧
          patchable u = true := by
      intro r' hr'
      obtain ⟨a1, a2, a3, u, hu, hpu⟩ := hall r' (by simp [hr'])
      refine ⟨a1, a2, a3, u, ?_, hpu⟩
      rw [List.getElem?_set_ne, hu]
      intro he
      exact hnotmem (he ▸ List.mem_map_of_mem (· / INSTR_SIZE) hr')
    obtain ⟨ins', hbp, hres⟩ := backpatch_spec rest (ins.set (r / INSTR_SIZE) w') la
      (List.Nodup.of_cons hnd) hall'
    refine ⟨ins', ?_, ?_⟩
    · unfold backpatch
      rw [hw]
      simp only [Option.some_bind]
      rw [hml]
      simp only [Option.some_bind]
      exact hbp
    · intro r' hr'
      rcases List.mem_cons.mp hr' with he | hm
      · subst he
        refine ⟨w', ?_, hdf⟩
        rw [backpatch_getElem_not_mem rest _ la ins' _ hbp hnotmem,
            List.getElem?_set_eq_of_lt _ hlt]
      · exact hres r' hm

/-- If some pending reference points at a word with a non-patchable
encoding, `backpatch` dies (`modify_line` hits its fatal arm). -/
lemma backpatch_none_of_bad :
    ∀ (refs ins : List Nat) (la : Nat),
      (∃ r ∈ refs, ∃ w, ins[r / INSTR_SIZE]? = some w ∧ patchable w = false) →
      backpatch ins refs la = none
  | [], _, _, hbad => by simp at hbad
  | r :: rest, ins, la, hbad => by
    unfold backpatch
    rcases hw : ins[r / INSTR_SIZE]? with _ | w
    · rfl
    simp only [Option.some_bind]
    rcases hml : modify_line w r la with _ | w'
    · rfl
    simp only [Option.some_bind]
    have hpw : patchable w = true := modify_line_some_patchable w r la w' hml
    rcases hbad with ⟨rb, hrb, wb, hwb, hpb⟩
    rcases List.mem_cons.mp hrb with he | hm
    · subst he
      rw [hw] at hwb
      injection hwb with hwb
      rw [hwb] at hpw
      rw [hpw] at hpb
      exact absurd hpb (by simp)
    · apply backpatch_none_of_bad rest (ins.set (r / INSTR_SIZE) w') la
      by_cases hje : rb / INSTR_SIZE = r / INSTR_SIZE
      · rw [hje] at hwb
        rw [hw] at hwb
        injection hwb with hwb
        rw [hwb] at hpw
        rw [hpw] at hpb
        exact absurd hpb (by simp)
      · exact ⟨rb, hm, wb, by
          rw [List.getElem?_set_ne (fun he => hje he.symm)]
          exact hwb, hpb⟩

/-! ## Flag-computation lemmas -/

lemma set_reg_value_pstate (s : CPU) (r v : Nat) :
    (set_reg_value s r v).pstate = s.pstate := by
  unfold set_reg_value
  split <;> rfl

/-- The PState written by a flag-setting `apply_arithmetic_32`. -/
lemma apply_arithmetic_32_pstate (s : CPU) (src op2 d op : Nat) :
    (apply_arithmetic_32 s src op2 d 1 op).pstate =
      { negative_flag := (arith_result_32 src op2 op).testBit 31
        zero_flag := decide (arith_result_32 src op2 op = 0)
        overflow_flag := decide (0 < src) && decide (0 < op2) &&
          decide (arith_result_32 src op2 op < 0)
        carry_flag :=
          if op ≠ 0 then decide (op2 ≤ src)
          else decide (arith_result_32 src op2 op < src) ||
            decide (arith_result_32 src op2 op < op2) } := by
  unfold apply_arithmetic_32
  by_cases hd : d = NUM_REGISTERS <;> simp [hd, set_reg_value_pstate]

/-- The PState written by a flag-setting `apply_arithmetic_64`. -/
lemma apply_arithmetic_64_pstate (s : CPU) (src op2 d op : Nat) :
    (apply_arithmetic_64 s src op2 d 1 op).pstate =
      { negative_flag := (arith_result_64 src op2 op).testBit 63
        zero_flag := decide (arith_result_64 src op2 op = 0)
        overflow_flag := decide (0 < src) && decide (0 < op2) &&
          decide (arith_result_64 src op2 op < 0)
        carry_flag :=
          if op ≠ 0 then decide (op2 ≤ src)
          else decide (arith_result_64 src op2 op < src) ||
            decide (arith_result_64 src op2 op < op2) } := by
  unfold apply_arithmetic_64
  by_cases hd : d = NUM_REGISTERS <;> simp [hd, set_reg_value_pstate]

/-! ## Claim theorems -/

/-- C7: each memory accessor of `memory.c` fails fatally exactly when the
last byte it would touch is out of range: `get_word`/`set_word` succeed
iff `a + 4 ≤ 2 ^ 21`, and `get_double_word`/`set_double_word` succeed iff
`a + 8 ≤ 2 ^ 21`. -/
theorem memory_bounds_exact (m : Memory) (a v : Nat) :
    ((get_word m a).isSome ↔ a + 4 ≤ 2 ^ 21) ∧
    ((set_word m a v).isSome ↔ a + 4 ≤ 2 ^ 21) ∧
    ((get_double_word m a).isSome ↔ a + 8 ≤ 2 ^ 21) ∧
    ((set_double_word m a v).isSome ↔ a + 8 ≤ 2 ^ 21) := by
  unfold get_word set_word get_double_word set_double_word NUM_OF_MEMORY_ADDRESS
  refine ⟨?_, ?_, ?_, ?_⟩ <;> split_ifs with h <;> simp <;> omega

/-- C8: `set_double_word` followed by `get_double_word` at the same
(possibly unaligned) in-range address returns the stored 64-bit value,
and `set_word` followed by `get_word` returns the low 32 bits, with the
little-endian byte layout of the model. -/
theorem store_load_roundtrip (m : Memory) (a v : Nat) :
    (a + 8 ≤ 2 ^ 21 → v < 2 ^ 64 →
      ∃ m', set_double_word m a v = some m' ∧ get_double_word m' a = some v) ∧
    (a + 4 ≤ 2 ^ 21 →
      ∃ m', set_word m a v = some m' ∧ get_word m' a = some (v % 2 ^ 32)) := by
  constructor
  · intro hb hv
    refine ⟨set_double_word_mem m a v, ?_, ?_⟩
    · unfold set_double_word NUM_OF_MEMORY_ADDRESS
      rw [if_neg (by omega)]
    · unfold get_double_word NUM_OF_MEMORY_ADDRESS
      rw [if_neg (by omega), sdwm_at0, sdwm_at1, sdwm_at2, sdwm_at3, sdwm_at4,
          sdwm_at5, sdwm_at6, sdwm_at7]
      congr 1
      omega
  · intro hb
    refine ⟨set_word_mem m a v, ?_, ?_⟩
    · unfold set_word NUM_OF_MEMORY_ADDRESS
      rw [if_neg (by omega)]
    · unfold get_word NUM_OF_MEMORY_ADDRESS
      rw [if_neg (by omega), swm_at0, swm_at1, swm_at2, swm_at3]
      congr 1
      omega

/-- Witness for C8 at the unaligned address 1 and the all-ones 64-bit
value. -/
theorem store_load_roundtrip_witness :
    ∃ m', set_double_word zero_memory 1 (2 ^ 64 - 1) = some m' ∧
      get_double_word m' 1 = some (2 ^ 64 - 1) :=
  (store_load_roundtrip zero_memory 1 (2 ^ 64 - 1)).1 (by norm_num) (by norm_num)

/-- C5: for 64-bit operands, the flag-setting add sets C iff the unsigned
sum overflows, the flag-setting subtract sets C iff `b ≤ a` (no borrow),
and in both cases N is the top bit of the result and Z says the result is
zero. -/
theorem adds_subs_flags_64 (s : CPU) (a b rd : Nat)
    (ha : a < 2 ^ 64) (hb : b < 2 ^ 64) :
    ((apply_arithmetic_64 s a b rd 1 0).pstate.carry_flag = true ↔ 2 ^ 64 ≤ a + b) ∧
    ((apply_arithmetic_64 s a b rd 1 1).pstate.carry_flag = true ↔ b ≤ a) ∧
    (apply_arithmetic_64 s a b rd 1 0).pstate.negative_flag =
      ((a + b) % 2 ^ 64).testBit 63 ∧
    (apply_arithmetic_64 s a b rd 1 1).pstate.negative_flag =
      ((a + (2 ^ 64 - b)) % 2 ^ 64).testBit 63 ∧
    ((apply_arithmetic_64 s a b rd 1 0).pstate.zero_flag = true ↔
      (a + b) % 2 ^ 64 = 0) ∧
    ((apply_arithmetic_64 s a b rd 1 1).pstate.zero_flag = true ↔
      (a + (2 ^ 64 - b)) % 2 ^ 64 = 0) := by
  have hmod : b % 2 ^ 64 = b := Nat.mod_eq_of_lt hb
  rw [apply_arithmetic_64_pstate, apply_arithmetic_64_pstate]
  unfold arith_result_64
  refine ⟨?_, ?_, ?_, ?_, ?_, ?_⟩
  · simp
    omega
  · simp
  · simp
  · simp only [hmod]
    simp
  · simp
  · simp only [hmod]
    simp

/-- Witness for C5 at `a = b = 2 ^ 63` (unsigned overflow on add, no
borrow on subtract). -/
theorem adds_subs_flags_64_witness :
    (apply_arithmetic_64 cpu0 (2 ^ 63) (2 ^ 63) 0 1 0).pstate.carry_flag = true ∧
    (apply_arithmetic_64 cpu0 (2 ^ 63) (2 ^ 63) 0 1 1).pstate.zero_flag = true := by
  have h := adds_subs_flags_64 cpu0 (2 ^ 63) (2 ^ 63) 0 (by norm_num) (by norm_num)
  exact ⟨h.1.mpr (by norm_num), (h.2.2.2.2.2).mpr (by norm_num)⟩

/-- C1 (code bug): for every flag-setting arithmetic instruction, at both
widths and for both operations, `apply_arithmetic` leaves the overflow
flag false — the C test compares the unsigned result against 0 — so V is
*not* the signed overflow: e.g. the adds of `2 ^ 31 - 1` and `1` does
overflow signed 32-bit arithmetic (last conjunct) yet still yields
`V = false`. -/
theorem overflow_flag_never_set (s : CPU) (src op2 d op : Nat) :
    (apply_arithmetic_32 s src op2 d 1 op).pstate.overflow_flag = false ∧
    (apply_arithmetic_64 s src op2 d 1 op).pstate.overflow_flag = false ∧
    ¬ ((2 ^ 31 - 1 : Int) + 1 < 2 ^ 31) := by
  rw [apply_arithmetic_32_pstate, apply_arithmetic_64_pstate]
  refine ⟨by simp, by simp, by norm_num⟩

/-- C10: `ra` is decoded from a 5-bit field, so the `ra == 32` branch of
`exec_reg_multiply` is unreachable: the executor behaves exactly like the
variant that always reads the accumulator through the register file, and
register 31 reads as the zero register. -/
theorem reg_multiply_ra_dead_branch (w : Nat) (s : CPU) :
    (decodeRegMultiply w).ra < 32 ∧
    exec_reg_multiply (decodeRegMultiply w) s =
      exec_reg_multiply_via_regfile (decodeRegMultiply w) s ∧
    get_reg_value_64 s 31 = 0 := by
  have hra : (decodeRegMultiply w).ra < 32 := by
    unfold decodeRegMultiply getField
    exact Nat.mod_lt _ (by norm_num)
  have hne : (decodeRegMultiply w).ra ≠ 32 := by omega
  refine ⟨hra, ?_, rfl⟩
  unfold exec_reg_multiply exec_reg_multiply_via_regfile
  simp [hne]

/-- C4 counterexample: running `movz x0, #5` + HALT from the initial
state ends with the zero flag still set (it is initialised to `true` in
`cpu.c` and `movz` does not touch PState), so the dump line reads
`PSTATE : -Z--`, not `PSTATE : ----` as the claim states. -/
theorem movz_halt_pstate_not_all_clear :
    (run_cpu 3 movz_halt_cpu).map (fun s => pstate_chars s.pstate) =
      some ['-', 'Z', '-', '-'] ∧
    (['-', 'Z', '-', '-'] : List Char) ≠ ['-', '-', '-', '-'] := by
  exact ⟨rfl, by decide⟩

/-- C4 (amended): the run terminates (fetching HALT stops the loop) with
`X0 = 5`, `PC = 4`, N/C/V clear and Z still set from initialisation, so
the PSTATE dump line reads `-Z--`. -/
theorem movz_halt_final_state :
    (run_cpu 3 movz_halt_cpu).map
      (fun s => (get_reg_value_64 s 0, s.pc, pstate_chars s.pstate)) =
      some (5, 4, ['-', 'Z', '-', '-']) := by
  rfl

/-- C3 (code bug): the 32-bit (`sf = 0`) post-index store executes
`set_double_word(address, get_reg_value_64(rt))`: all 8 bytes of the full
64-bit `rt` land in memory (bytes 19, 20 and 23 of this run carry the
*high* half `0xAABBCCDD`), where a 4-byte store of the low word would
have left bytes 20–23 zero; the base register write-back itself is
correct (`x1 = 16 + 0`). -/
theorem post_index_store32_writes_doubleword :
    (exec_dt_post_index post_index_inst post_index_cpu).map
      (fun s => (s.mem 16, s.mem 19, s.mem 20, s.mem 23, get_reg_value_64 s 1)) =
      some (0x44, 0x11, 0xDD, 0xAA, 16) ∧ (0xDD : Nat) ≠ 0 := by
  exact ⟨rfl, by decide⟩

/-- C2 (code bug): on the two-line program `b end` / `and x0, x0, x0`
the label `end` is referenced (deferred with the zero placeholder in the
branch word `0x14000000`) and never defined, yet the assembler driver
completes successfully — `assemble` returns the words it writes to the
output file and exits 0 — while the pending map still holds `end`; no
end-of-pass validation exists anywhere between the last input line and
the file write. -/
theorem assemble_undefined_label_writes_output :
    assemble undef_label_prog = some [0x14000000, 0x8A000000] ∧
    (assemble_lines undef_label_prog asm_init).map
      (fun A => (A.st.labels, A.st.addresses)) =
      some ([], [(end_label, [0])]) ∧
    getField 0x14000000 0 26 = 0 := by
  exact ⟨rfl, rfl, by decide⟩

/-- C6: defining a label that has pending forward references.  First
part: if the patch indices are distinct and every recorded word is in
range and has a patchable encoding (with an in-range forward
displacement), `symbol_table_add_label` succeeds and every referenced
word ends up with its displacement field equal to `(addr - r) / 4`.
Second part: if any pending reference holds a word with any other
encoding, the internal-error arm of `modify_line` kills the assembler. -/
theorem add_label_backpatches (ins : List Nat) (addr : Nat) (label : CStr)
    (st : SymbolTable) (refs : List Nat)
    (hnew : hashmap_get st.labels label = none)
    (hp : hashmap_get st.addresses label = some refs) :
    ((refs.map (· / INSTR_SIZE)).Nodup →
      (∀ r ∈ refs, r ≤ addr ∧ addr < 2 ^ 32 ∧ (addr - r) / 4 < 2 ^ 19 ∧
        ∃ w, ins[r / INSTR_SIZE]? = some w ∧ patchable w = true) →
      ∃ ins' st', symbol_table_add_label ins addr label st = some (ins', st') ∧
        ∀ r ∈ refs, ∃ w', ins'[r / INSTR_SIZE]? = some w' ∧
          dispField w' = (addr - r) / 4) ∧
    ((∃ r ∈ refs, ∃ w, ins[r / INSTR_SIZE]? = some w ∧ patchable w = false) →
      symbol_table_add_label ins addr label st = none) := by
  have hcon : ¬ (hashmap_contains st.labels label = true) := by
    unfold hashmap_contains
    unfold hashmap_get at hnew
    rw [hnew]
    simp
  constructor
  · intro hnd hall
    obtain ⟨ins', hbp, hres⟩ := backpatch_spec refs ins addr hnd hall
    refine ⟨ins', { st with labels := hashmap_set st.labels label addr }, ?_, hres⟩
    unfold symbol_table_add_label
    rw [if_neg hcon]
    split
    · next heq =>
      rw [hp] at heq
      exact absurd heq (by simp)
    · next refs' heq =>
      rw [hp] at heq
      injection heq with heq
      subst heq
      rw [hbp]
      rfl
  · intro hbad
    unfold symbol_table_add_label
    rw [if_neg hcon]
    split
    · next heq =>
      rw [hp] at heq
      exact absurd heq (by simp)
    · next refs' heq =>
      rw [hp] at heq
      injection heq with heq
      subst heq
      rw [backpatch_none_of_bad refs ins addr hbad]
      rfl

/-- Witness for C6: defining `end` at address 8 patches the pending
branch word at address 0 to displacement 2. -/
theorem add_label_backpatches_witness :
    ∃ ins' st', symbol_table_add_label [0x14000000, 0x8A000000] 8 end_label
      { labels := [], addresses := [(end_label, [0])] } = some (ins', st') ∧
      ∀ r ∈ ([0] : List Nat), ∃ w', ins'[r / INSTR_SIZE]? = some w' ∧
        dispField w' = (8 - r) / 4 := by
  refine (add_label_backpatches [0x14000000, 0x8A000000] 8 end_label
    { labels := [], addresses := [(end_label, [0])] } [0] rfl rfl).1 (by decide) ?_
  intro r hr
  have hr0 : r = 0 := by simpa using hr
  subst hr0
  exact ⟨by norm_num, by norm_num, by norm_num, 0x14000000, rfl, by decide⟩

/-- C9: back-patching is frame-exact.  (1) `modify_line` changes only the
displacement field of the word: outside `simm26` (bits 0–25) for an
unconditional branch, outside `simm19` (bits 5–23) for the other two
encodings, every bit is preserved.  (2) `symbol_table_add_label` leaves
every emitted word whose index is not among the label's pending
references unchanged, and (3) leaves all words unchanged when the label
has no pending references. -/
theorem backpatch_frame :
    (∀ w ia la w', modify_line w ia la = some w' →
      ∀ i : Nat,
        ((getField w 26 3 = 5 ∧ getField w 30 2 = 0) → 26 ≤ i →
          w'.testBit i = w.testBit i) ∧
        (¬ (getField w 26 3 = 5 ∧ getField w 30 2 = 0) → i < 5 ∨ 24 ≤ i →
          w'.testBit i = w.testBit i)) ∧
    (∀ (ins : List Nat) (addr : Nat) (label : CStr) (st : SymbolTable)
       (ins' : List Nat) (st' : SymbolTable) (refs : List Nat) (j : Nat),
      symbol_table_add_label ins addr label st = some (ins', st') →
      hashmap_get st.addresses label = some refs →
      j ∉ refs.map (· / INSTR_SIZE) →
      ins'[j]? = ins[j]?) ∧
    (∀ (ins : List Nat) (addr : Nat) (label : CStr) (st : SymbolTable)
       (ins' : List Nat) (st' : SymbolTable),
      symbol_table_add_label ins addr label st = some (ins', st') →
      hashmap_get st.addresses label = none →
      ins' = ins) := by
  refine ⟨?_, ?_, ?_⟩
  · intro w ia la w' hml i
    unfold modify_line at hml
    split_ifs at hml with h1 h2 h3
    · injection hml with hml
      subst hml
      constructor
      · intro _ hi
        exact testBit_setField_high w 0 26 _ i (by omega)
      · intro hn _
        exact absurd h1 hn
    · injection hml with hml
      subst hml
      constructor
      · intro hc _
        exact absurd hc h1
      · intro _ hi
        rcases hi with hi | hi
        · exact testBit_setField_low w 5 19 _ i hi
        · exact testBit_setField_high w 5 19 _ i (by omega)
    · injection hml with hml
      subst hml
      constructor
      · intro hc _
        exact absurd hc h1
      · intro _ hi
        rcases hi with hi | hi
        · exact testBit_setField_low w 5 19 _ i hi
        · exact testBit_setField_high w 5 19 _ i (by omega)
  · intro ins addr label st ins' st' refs j hadd hp hj
    unfold symbol_table_add_label at hadd
    split_ifs at hadd with hc
    split at hadd
    · next heq =>
      rw [hp] at heq
      exact absurd heq (by simp)
    · next refs' heq =>
      rw [hp] at heq
      injection heq with heq
      subst heq
      rcases hb : backpatch ins refs addr with _ | ins'' <;> rw [hb] at hadd
      · exact absurd hadd (by simp)
      · simp only [Option.map_some'] at hadd
        injection hadd with hadd
        have hfst : ins'' = ins' := congrArg Prod.fst hadd
        rw [← hfst]
        exact backpatch_getElem_not_mem refs ins addr ins'' j hb hj
  · intro ins addr label st ins' st' hadd hp
    unfold symbol_table_add_label at hadd
    split_ifs at hadd with hc
    split at hadd
    · next heq =>
      injection hadd with hadd
      exact (congrArg Prod.fst hadd).symm
    · next refs' heq =>
      rw [hp] at heq
      exact absurd heq (by simp)

/-- Witness for C9: the patch of the branch word `0x14000000` (to
`0x14000002`) leaves bit 30 unchanged. -/
theorem backpatch_frame_witness :
    (0x14000002 : Nat).testBit 30 = (0x14000000 : Nat).testBit 30 := by
  have h := backpatch_frame.1 0x14000000 0 8 0x14000002 (by rfl) 30
  exact h.1 (by decide) (by norm_num)

end AArch
